import Mathlib

/-!
Shallow embedding of the asynchronous task-orchestration layer of
PDFMathTranslate-next (`src/pdf2zh_next/http_api.py` and
`src/pdf2zh_next/auth.py`).

Modelling conventions:
* Python `datetime` values are modelled as `Nat` timestamps counted in
  seconds; `timedelta(days=d)` is `d * 86400` seconds.
* Python `float` progress values are modelled as `Rat` (the concrete
  values the code manipulates, `0.0` and `1.0`, are exact).
* The SQLite `tasks` table is modelled as a `List TaskRecord` of rows;
  `SELECT ... WHERE id = ?` is `List.find?`, `DELETE ... WHERE id = ?` is
  `List.filter`, `UPDATE ... WHERE id = ?` rewrites every matching row.
* Exceptions (`KeyError`, `InvalidConfigError`) are modelled with
  `Except`.
-/

namespace PdfApi

/-- Task lifecycle states, from `class TaskStatus` in `http_api.py`. -/
inductive TaskStatus where
  | PENDING
  | RUNNING
  | DONE
  | FAILED
deriving DecidableEq, Repr

/-- Result download modes, from `class ResultMode` in `http_api.py`. -/
inductive ResultMode where
  | mono
  | dual
  | original
deriving DecidableEq, Repr

/-- The four-field artifact-path descriptor produced by `_extract_result`
(keys `original_pdf`, `mono_pdf`, `dual_pdf`, `output_dir`). -/
structure ResultDict where
  original_pdf : Option String := none
  mono_pdf : Option String := none
  dual_pdf : Option String := none
  output_dir : Option String := none
deriving DecidableEq, Repr

/-- The translation engine's structured result object, exposing the four
attributes probed by `_extract_result` via `getattr`.  `reprStr` is the
object's Python `str()` form, used only by the generic `_jsonify`
fallback. -/
structure TranslateResult where
  original_pdf_path : Option String := none
  mono_pdf_path : Option String := none
  dual_pdf_path : Option String := none
  output_dir : Option String := none
  reprStr : String := ""
deriving DecidableEq, Repr

/-- Universe of Python values that can appear inside an engine event
dictionary, covering exactly the `isinstance` cases distinguished by
`_jsonify` in `http_api.py`: `str`/`int`/`float`/`bool`/`None`, `Path`,
`datetime`, `dict`, sequence (`list`/`tuple`/`set`), the engine's
structured result object, and a catch-all for any other object (carrying
its Python `str()` form, which is all `_jsonify` can observe of it). -/
inductive PyVal where
  | pynone
  | pybool (b : Bool)
  | pyint (n : Int)
  | pyfloat (q : Rat)
  | pystr (s : String)
  | pypath (p : String)
  | pydatetime (iso : String)
  | pydict (entries : List (String × PyVal))
  | pylist (items : List PyVal)
  | pyresult (r : TranslateResult)
  | pyother (reprStr : String)

/-- JSON-safe values: what `_jsonify` produces (and what `json.dumps` can
serialise). -/
inductive JVal where
  | jnull
  | jbool (b : Bool)
  | jnum (q : Rat)
  | jstr (s : String)
  | jdict (entries : List (String × JVal))
  | jlist (items : List JVal)

/-- An engine event: a Python dict from string keys to Python values. -/
abbrev Event := List (String × PyVal)

/-- A sanitized (JSON-safe) event as persisted in the event log. -/
abbrev JEvent := List (String × JVal)

/-- Python `dict.get(key)`: the value at the first matching key, or
`none` when absent. -/
def lookupKey (d : List (String × PyVal)) (k : String) : Option PyVal :=
  (d.find? (fun kv => kv.1 == k)).map (fun kv => kv.2)

/-- Translation of `_jsonify` from `http_api.py`: strings, numbers,
booleans and `None` pass through; `Path` and `datetime` become strings;
dicts and sequences are recursively coerced; anything else becomes its
`str()` form. -/
def _jsonify : PyVal → JVal
  | .pynone => .jnull
  | .pybool b => .jbool b
  | .pyint n => .jnum (n : Rat)
  | .pyfloat q => .jnum q
  | .pystr s => .jstr s
  | .pypath p => .jstr p
  | .pydatetime iso => .jstr iso
  | .pydict entries => .jdict (entries.attach.map (fun kv => (kv.1.1, _jsonify kv.1.2)))
  | .pylist items => .jlist (items.attach.map (fun v => _jsonify v.1))
  | .pyresult r => .jstr r.reprStr
  | .pyother s => .jstr s
decreasing_by
  all_goals simp_wf
  · rcases kv with ⟨⟨k, v⟩, hv⟩
    have := List.sizeOf_lt_of_mem hv
    simp at this ⊢
    omega
  · rcases v with ⟨x, hx⟩
    have := List.sizeOf_lt_of_mem hx
    simp at this ⊢
    omega

/-- Python truthiness filter used by `_extract_result`:
`str(x) if x else None` maps `None` and the empty string to `None`. -/
def optTruthy : Option String → Option String
  | none => none
  | some s => if s = "" then none else some s

/-- Translation of `_extract_result` from `http_api.py`, applied to
`event.get("translate_result")`: `None` (or an absent key) yields `None`;
the engine's result object yields the four-field descriptor via truthy
`getattr` probing; any other object has none of the four attributes, so
`getattr(..., default=None)` yields a descriptor of four `None`s. -/
def _extract_result : Option PyVal → Option ResultDict
  | none => none
  | some .pynone => none
  | some (.pyresult r) =>
      some { original_pdf := optTruthy r.original_pdf_path
             mono_pdf := optTruthy r.mono_pdf_path
             dual_pdf := optTruthy r.dual_pdf_path
             output_dir := optTruthy r.output_dir }
  | some _ => some {}

/-- JSON encoding of an optional string (`None` ↦ `null`). -/
def optStrJ : Option String → JVal
  | none => .jnull
  | some s => .jstr s

/-- JSON form of the optional artifact descriptor as it is stored in the
event log. -/
def resultToJVal : Option ResultDict → JVal
  | none => .jnull
  | some d =>
      .jdict [("original_pdf", optStrJ d.original_pdf),
              ("mono_pdf", optStrJ d.mono_pdf),
              ("dual_pdf", optStrJ d.dual_pdf),
              ("output_dir", optStrJ d.output_dir)]

/-- Translation of `_sanitize_event` from `http_api.py`: the
`translate_result` key is replaced by the artifact-path descriptor, every
other value goes through `_jsonify`. -/
def _sanitize_event (e : Event) : JEvent :=
  e.map (fun kv =>
    if kv.1 == "translate_result" then (kv.1, resultToJVal (_extract_result (some kv.2)))
    else (kv.1, _jsonify kv.2))

/-- Translation of the `TaskRecord` dataclass from `http_api.py` (merged
with the column view of the SQLite `tasks` row it round-trips through:
`retention_days INTEGER`, `progress REAL`, `result_json`/`events_json`
as decoded values). -/
structure TaskRecord where
  id : String
  owner : String
  filename : String
  input_path : String
  output_dir : String
  status : TaskStatus
  created_at : Nat
  updated_at : Nat
  retention_days : Option Int := none
  progress : Rat := 0
  message : Option String := none
  result : Option ResultDict := none
  events : List JEvent := []

/-- The SQLite `tasks` table, as a list of rows. -/
abbrev Store := List TaskRecord

/-- Row lookup `SELECT * FROM tasks WHERE id = ?` (the primary key makes
at most one row match; on a list this is the first match). -/
def findTask (s : Store) (tid : String) : Option TaskRecord :=
  s.find? (fun r => r.id == tid)

/-- Translation of `_is_expired` from `http_api.py`:
`datetime.utcnow() - record.created_at > timedelta(days=record.retention_days)`,
with `none` never expired.  `now` is the current time in seconds. -/
def _is_expired (r : TaskRecord) (now : Nat) : Bool :=
  match r.retention_days with
  | none => false
  | some d => decide ((now : Int) - (r.created_at : Int) > d * 86400)

/-- Translation of `TaskStorage.delete`:
`DELETE FROM tasks WHERE id = ?` — removes every row with the given id,
silently succeeding when none exists. -/
def TaskStorage.delete (s : Store) (tid : String) : Store :=
  s.filter (fun r => !(r.id == tid))

/-- What a caller of a storage coroutine observes: a returned value, a
raised `KeyError` (carrying the task id), or a call that never returns.
The last case arises because `TaskStorage._lock` is a non-reentrant
`asyncio.Lock`: `_fetch` runs inside `get`'s / `update`'s
`async with self._lock`, and its expired branch awaits
`self.delete(task_id)`, which tries to acquire that same lock again —
the coroutine blocks forever, holding the lock. -/
inductive Outcome (α : Type) where
  | ok (a : α)
  | error (e : String)
  | deadlock

/-- Translation of `TaskStorage._fetch` as invoked by `get` and
`update` (both hold the storage lock around it): select the row, raise
`KeyError` when absent; when the record is expired, the branch
`await self.delete(task_id); raise KeyError(task_id)` never gets past
the `delete` — `delete` re-acquires the already-held non-reentrant
lock, so the call deadlocks: nothing is deleted, no `KeyError` is
raised, and the store is left as it was.  Returns the observed outcome
together with the store. -/
def TaskStorage._fetch (s : Store) (tid : String) (now : Nat) :
    Outcome TaskRecord × Store :=
  match findTask s tid with
  | none => (.error tid, s)
  | some r =>
      if _is_expired r now then (.deadlock, s)
      else (.ok r, s)

/-- Translation of `TaskStorage.get`: `_fetch` under the storage lock
(the lock is what turns the expired branch into a self-deadlock). -/
def TaskStorage.get (s : Store) (tid : String) (now : Nat) :
    Outcome TaskRecord × Store :=
  TaskStorage._fetch s tid now

/-- Translation of `TaskStorage.create`: `INSERT INTO tasks ...`; the
primary key rejects a duplicate id (`sqlite3.IntegrityError`). -/
def TaskStorage.create (s : Store) (r : TaskRecord) : Except String Store :=
  if (findTask s r.id).isSome then .error "IntegrityError"
  else .ok (s ++ [r])

/-- Sort rows newest `created_at` first, the `ORDER BY created_at DESC`
of `TaskStorage.list`. -/
def sortByCreatedDesc (rows : List TaskRecord) : List TaskRecord :=
  rows.mergeSort (fun a b => decide (b.created_at ≤ a.created_at))

/-- The scan loop of `TaskStorage.list` over the owner's rows (already
sorted newest first): expired rows are deleted and skipped; live rows
are collected until, right after an append, the count reaches `limit`
(`if len(records) >= limit: break`).  Returns the collected records and
the ids deleted during the scan.  `count` is `len(records)` so far;
`limit` is a Python `int`. -/
def scanRows (now : Nat) (limit : Int) :
    List TaskRecord → Nat → List TaskRecord × List String
  | [], _ => ([], [])
  | r :: rest, count =>
      if _is_expired r now then
        let p := scanRows now limit rest count
        (p.1, r.id :: p.2)
      else if ((count : Int) + 1 ≥ limit) then ([r], [])
      else
        let p := scanRows now limit rest (count + 1)
        (r :: p.1, p.2)

/-- Translation of `TaskStorage.list`: select the owner's rows newest
first, then scan, deleting expired rows and capping the survivors.
Returns the listed records and the store after the expiry deletions. -/
def TaskStorage.list (s : Store) (owner : String) (limit : Int) (now : Nat) :
    List TaskRecord × Store :=
  let rows := sortByCreatedDesc (s.filter (fun r => r.owner == owner))
  let p := scanRows now limit rows 0
  (p.1, p.2.foldl (fun st tid => TaskStorage.delete st tid) s)

/-- Values passed as keyword arguments to `TaskStorage.update`, typed by
the argument types its callers in `http_api.py` supply: a `TaskStatus`
for `status`, a float for `progress`, an optional string for `message`,
an optional dict for `result`, an optional int for `retention_days`, and
an arbitrary value (carrying only its `str()` form) for unrecognized
keys. -/
inductive UpdateVal where
  | vstatus (st : TaskStatus)
  | vfloat (q : Rat)
  | vstr (s : Option String)
  | vresult (d : Option ResultDict)
  | vint (n : Option Int)
  | vother (reprStr : String)
deriving DecidableEq, Repr

/-- The `fields` dict built by the recognition loop of
`TaskStorage.update` (column assignments to apply; `none` = column not
mentioned). -/
structure FieldSet where
  status : Option TaskStatus := none
  progress : Option Rat := none
  message : Option (Option String) := none
  result : Option (Option ResultDict) := none
  retention_days : Option (Option Int) := none
deriving DecidableEq, Repr

/-- Whether the `fields` dict is empty (`if not fields`). -/
def FieldSet.isEmpty (fs : FieldSet) : Bool :=
  fs.status.isNone && fs.progress.isNone && fs.message.isNone &&
    fs.result.isNone && fs.retention_days.isNone

/-- One step of the recognition loop of `TaskStorage.update`: the key
`status` is only accepted with a `TaskStatus` value (the `isinstance`
guard); `progress`, `message`, `result`, `retention_days` set their
column; every other key is ignored. -/
def applyKwarg (fs : FieldSet) (kv : String × UpdateVal) : FieldSet :=
  if kv.1 = "status" then
    match kv.2 with
    | .vstatus st => { fs with status := some st }
    | _ => fs
  else if kv.1 = "progress" then
    match kv.2 with
    | .vfloat q => { fs with progress := some q }
    | _ => fs
  else if kv.1 = "message" then
    match kv.2 with
    | .vstr m => { fs with message := some m }
    | _ => fs
  else if kv.1 = "result" then
    match kv.2 with
    | .vresult d => { fs with result := some d }
    | _ => fs
  else if kv.1 = "retention_days" then
    match kv.2 with
    | .vint n => { fs with retention_days := some n }
    | _ => fs
  else fs

/-- The full recognition loop (`for key, value in kwargs.items()`). -/
def collectFields (kwargs : List (String × UpdateVal)) : FieldSet :=
  kwargs.foldl applyKwarg {}

/-- Apply the collected column assignments to one row, refreshing
`updated_at` (the SQL `UPDATE tasks SET ... WHERE id = ?` on that row). -/
def applyFields (fs : FieldSet) (now : Nat) (r : TaskRecord) : TaskRecord :=
  { r with
    status := fs.status.getD r.status
    progress := fs.progress.getD r.progress
    message := fs.message.getD r.message
    result := fs.result.getD r.result
    retention_days := fs.retention_days.getD r.retention_days
    updated_at := now }

/-- Translation of `TaskStorage.update`: build the `fields` dict; when
no recognized field was supplied, just `_fetch`; otherwise run the SQL
update on every matching row (committed) and `_fetch` the result.  The
trailing `_fetch` runs under `update`'s own lock, so on an expired row
it deadlocks — after the column update was already committed. -/
def TaskStorage.update (s : Store) (tid : String)
    (kwargs : List (String × UpdateVal)) (now : Nat) :
    Outcome TaskRecord × Store :=
  if (collectFields kwargs).isEmpty then TaskStorage._fetch s tid now
  else
    TaskStorage._fetch
      (s.map (fun r =>
        if r.id == tid then applyFields (collectFields kwargs) now r else r))
      tid now

/-- Translation of `TaskStorage.append_event`: read the row's event log
(`KeyError` when the row is absent), append the event, write the new log
back together with a fresh `updated_at`. -/
def TaskStorage.append_event (s : Store) (tid : String) (ev : JEvent)
    (now : Nat) : Except String Store :=
  match findTask s tid with
  | none => .error tid
  | some r =>
      let newEvents := r.events ++ [ev]
      .ok (s.map (fun x =>
        if x.id == tid then { x with events := newEvents, updated_at := now }
        else x))

/-- The `basic` section of the resolved settings model; only the fields
the API layer touches are modelled. -/
structure BasicArgs where
  gui : Bool := false
  debug : Bool := false
deriving DecidableEq, Repr

/-- The `translation` section of the resolved settings model. -/
structure TranslationArgs where
  output : String := ""
deriving DecidableEq, Repr

/-- The `pdf` section of the resolved settings model. -/
structure PdfArgs where
  linearize_output : Bool := false
deriving DecidableEq, Repr

/-- The resolved settings model (`SettingsModel` of the config package),
restricted to the fields `http_api.py` reads or writes. -/
structure SettingsModel where
  basic : BasicArgs := {}
  translation : TranslationArgs := {}
  pdf : PdfArgs := {}
deriving DecidableEq, Repr

/-- Translation of `TranslationService._build_settings`.  The
default-loading, merging and validation pipeline
(`CLIEnvSettingsModel`, `ConfigManager.merge_settings`,
`_build_model_from_args`, `to_settings_model`) lives in the config
package, outside the API layer; its outcome for the given client
override mapping is abstracted as the `pipeline` argument (an
`InvalidConfigError` message, or a resolved settings model).  After the
pipeline, the code unconditionally forces `basic.gui = False`,
`basic.debug = False` and `translation.output = str(output_dir)`. -/
def _build_settings (pipeline : Except String SettingsModel)
    (output_dir : String) : Except String SettingsModel :=
  match pipeline with
  | .error e => .error e
  | .ok settings =>
      .ok { settings with
            basic := { settings.basic with gui := false, debug := false }
            translation := { settings.translation with output := output_dir } }

/-- Translation of the `User` dataclass from `auth.py` (the `id`,
password and token fields play no role in the orchestration layer). -/
structure UserM where
  username : String
  display_name : Option String := none
  retention_days : Option Int := none
  is_guest : Bool := false
deriving DecidableEq, Repr

/-- Translation of `GUEST_USER` from `auth.py`. -/
def GUEST_USER : UserM :=
  { username := "guest"
    display_name := some "访客"
    retention_days := some 7
    is_guest := true }

/-- Translation of `get_user_or_guest` from `auth.py`:
`return user or GUEST_USER`. -/
def get_user_or_guest (user : Option UserM) : UserM :=
  user.getD GUEST_USER

/-- The fresh `TaskRecord` constructed by `TranslationService.submit`:
owned by the submitting user, carrying the user's `retention_days`,
starting `PENDING` with both timestamps at submission time. -/
def submitRecord (user : UserM) (tid : String) (safe_name : String)
    (input_path : String) (output_dir : String) (now : Nat) : TaskRecord :=
  { id := tid
    owner := user.username
    retention_days := user.retention_days
    filename := safe_name
    input_path := input_path
    output_dir := output_dir
    status := .PENDING
    created_at := now
    updated_at := now }

/-- Translation of `TranslationService.submit` after the filesystem
staging steps (identifier generation, filename sanitization and the
upload copy are inputs here): persist the `PENDING` record, build
settings, and on `InvalidConfigError` mark the record `FAILED` and
re-raise.  The result triple is (outcome observed by the caller, store
after the call, whether `_run_task` was scheduled).  A deadlocking
`update` (expired fresh record) hangs the request: no value is
returned and the runner is never scheduled. -/
def TranslationService.submit (s : Store) (user : UserM) (tid : String)
    (safe_name : String) (input_path : String) (output_dir : String)
    (pipeline : Except String SettingsModel) (now : Nat) :
    Outcome (TaskRecord × SettingsModel) × Store × Bool :=
  match TaskStorage.create s (submitRecord user tid safe_name input_path output_dir now) with
  | .error m => (.error m, s, false)
  | .ok s1 =>
      match _build_settings pipeline output_dir with
      | .error msg =>
          match TaskStorage.update s1 tid
              [("status", .vstatus .FAILED), ("message", .vstr (some msg))] now with
          | (.error kerr, s2) => (.error kerr, s2, false)
          | (.deadlock, s2) => (.deadlock, s2, false)
          | (.ok _, s2) => (.error msg, s2, false)
      | .ok settings =>
          (.ok (submitRecord user tid safe_name input_path output_dir now, settings),
           s1, true)

/-- Python `str()` on an event value, used by the `error` branch of the
runner.  The container cases never reach `str()` on any modelled path
(`_jsonify` intercepts dicts and sequences before its fallback, and
engine error payloads are flat values), so they carry a fixed tag. -/
def pyStr : PyVal → String
  | .pynone => "None"
  | .pybool b => if b then "True" else "False"
  | .pyint n => toString n
  | .pyfloat q => toString q
  | .pystr s => s
  | .pypath p => p
  | .pydatetime iso => iso
  | .pydict _ => "<dict>"
  | .pylist _ => "<list>"
  | .pyresult r => r.reprStr
  | .pyother s => s

/-- The numeric progress carried by an event, when
`isinstance(event.get("progress"), (int, float))` holds (Python `bool`
is a subclass of `int`, so booleans pass the check and coerce via
`float`). -/
def progressOf (e : Event) : Option Rat :=
  match lookupKey e "progress" with
  | some (.pyint n) => some (n : Rat)
  | some (.pyfloat q) => some q
  | some (.pybool b) => some (if b then 1 else 0)
  | _ => none

/-- The event's `type` field when it is a string; comparisons with the
literals `"finish"` and `"error"` can only succeed for string values. -/
def eventType (e : Event) : Option String :=
  match lookupKey e "type" with
  | some (.pystr s) => some s
  | _ => none

/-- The prefix of the stream the runner consumes: every event up to and
including the first `finish` or `error` event, or the whole stream when
no such event occurs. -/
def takeUntilTerminal : List Event → List Event
  | [] => []
  | e :: rest =>
      if eventType e = some "finish" ∨ eventType e = some "error" then [e]
      else e :: takeUntilTerminal rest

/-- The result value stored by the `finish` branch of `_run_task`.
`result_data.setdefault("output_dir", ...)` is a no-op whenever
`result_data` came from `_extract_result`, because that descriptor
always contains the `output_dir` key (possibly with value `None`); the
`elif output_dir_value:` branch builds a fresh one-key descriptor when
`result_data` is `None` and the configured output path is truthy. -/
def finishResult (rd : Option ResultDict) (outputSetting : String) :
    Option ResultDict :=
  match rd with
  | some d => some d
  | none => if outputSetting ≠ "" then some { output_dir := some outputSetting } else none

/-- How the runner's event loop ends: completed (`ok`), an exception
escaped the loop body (`exn`, carrying the message for the `except`
clause), or a storage call deadlocked (`hung`) — the coroutine blocks
forever and the store keeps the carried value from then on (a deadlock
is not an exception, so the `except` clause never runs). -/
inductive RunOutcome where
  | ok (s : Store)
  | exn (s : Store) (msg : String)
  | hung (s : Store)

/-- The event-consumption loop of `TranslationService._run_task` (the
body of its `try`), driven by the finite engine event stream.  A
`KeyError` escaping a storage call is modelled as `.exn` carrying the
store at that point and the exception message, to be handled by the
runner's generic `except` clause; a deadlocking storage call (expired
record seen by `update`'s trailing `_fetch`) is `.hung`. -/
def runBody (tid : String) (outputSetting : String) (now : Nat) :
    Store → List Event → RunOutcome
  | s, [] =>
      match TaskStorage.update s tid
          [("status", .vstatus .DONE), ("progress", .vfloat 1),
           ("message", .vstr (some "Completed"))] now with
      | (.error m, s1) => .exn s1 m
      | (.deadlock, s1) => .hung s1
      | (.ok _, s1) => .ok s1
  | s, e :: rest =>
      match TaskStorage.append_event s tid (_sanitize_event e) now with
      | .error m => .exn s m
      | .ok s1 =>
          let step2 : RunOutcome :=
            match progressOf e with
            | none => .ok s1
            | some q =>
                match TaskStorage.update s1 tid [("progress", .vfloat q)] now with
                | (.error m, s2) => .exn s2 m
                | (.deadlock, s2) => .hung s2
                | (.ok _, s2) => .ok s2
          match step2 with
          | .exn s2 m => .exn s2 m
          | .hung s2 => .hung s2
          | .ok s2 =>
              if eventType e = some "finish" then
                let rd := _extract_result (lookupKey e "translate_result")
                match TaskStorage.update s2 tid
                    [("status", .vstatus .DONE), ("progress", .vfloat 1),
                     ("message", .vstr (some "Completed")),
                     ("result", .vresult (finishResult rd outputSetting))] now with
                | (.error m, s3) => .exn s3 m
                | (.deadlock, s3) => .hung s3
                | (.ok _, s3) => .ok s3
              else if eventType e = some "error" then
                let msg :=
                  match lookupKey e "error" with
                  | none => "Translation failed"
                  | some v => pyStr v
                match TaskStorage.update s2 tid
                    [("status", .vstatus .FAILED), ("message", .vstr (some msg))] now with
                | (.error m, s3) => .exn s3 m
                | (.deadlock, s3) => .hung s3
                | (.ok _, s3) => .ok s3
              else runBody tid outputSetting now s2 rest

/-- Translation of `TranslationService._run_task` for a terminating
engine stream given as a list of events, returning the store the task
leaves behind: mark the task `RUNNING` (outside the `try`: a failure
there escapes the background task, freezing the store), then consume
the stream; an exception from the body is caught and the task is marked
`FAILED` with the exception's message.  When a storage call deadlocks
the coroutine hangs and the store keeps its value from that point on,
which is the value returned here. -/
def _run_task (s : Store) (tid : String) (settings : SettingsModel)
    (now : Nat) (events : List Event) : Store :=
  match TaskStorage.update s tid [("status", .vstatus .RUNNING)] now with
  | (.error _, s0) => s0
  | (.deadlock, s0) => s0
  | (.ok _, s0) =>
      match runBody tid settings.translation.output now s0 events with
      | .ok s1 => s1
      | .hung s1 => s1
      | .exn s1 m =>
          (TaskStorage.update s1 tid
            [("status", .vstatus .FAILED), ("message", .vstr (some m))] now).2

/-- What an HTTP client observes from a read handler: a served value,
an `HTTPException` response with a status code and detail, or a request
that never completes because the handler is blocked on the storage
deadlock (`hang`). -/
inductive HttpOutcome (α : Type) where
  | ok (a : α)
  | error (code : Nat) (detail : String)
  | hang

/-- Translation of the `GET /api/tasks/{task_id}` handler `get_task`:
storage lookup (`KeyError` ↦ 404), ownership gate (mismatch ↦ 404), and
a second expiry check (expired ↦ delete and 404).  When the storage
`get` deadlocks (expired record), the handler never produces a
response: the request hangs. -/
def get_task (s : Store) (tid : String) (user : UserM) (now : Nat) :
    HttpOutcome TaskRecord × Store :=
  match TaskStorage.get s tid now with
  | (.error _, s1) => (.error 404 "Not found", s1)
  | (.deadlock, s1) => (.hang, s1)
  | (.ok r, s1) =>
      if r.owner ≠ user.username then (.error 404 "Not found", s1)
      else if _is_expired r now then (.error 404 "Not found", TaskStorage.delete s1 tid)
      else (.ok r, s1)

/-- The dict mapping a `ResultMode` to its result key in
`download_result`. -/
def modeKey (m : ResultMode) (d : ResultDict) : Option String :=
  match m with
  | .mono => d.mono_pdf
  | .dual => d.dual_pdf
  | .original => d.original_pdf

/-- The `.value` of a `ResultMode`. -/
def ResultMode.value : ResultMode → String
  | .mono => "mono"
  | .dual => "dual"
  | .original => "original"

/-- Translation of the `GET /api/tasks/{task_id}/result` handler
`download_result`.  `fileExists` models `Path(...).exists()`; the
successful outcome is the path served by the `FileResponse`.  A stored
result dict is falsy only when it is `None` (every descriptor the
runner stores is a non-empty dict), and a missing or falsy path value
yields the mode-specific 404. -/
def download_result (s : Store) (tid : String) (mode : ResultMode)
    (user : UserM) (fileExists : String → Bool) (now : Nat) :
    HttpOutcome String × Store :=
  match TaskStorage.get s tid now with
  | (.error _, s1) => (.error 404 "Not found", s1)
  | (.deadlock, s1) => (.hang, s1)
  | (.ok r, s1) =>
      if r.owner ≠ user.username then (.error 404 "Not found", s1)
      else if _is_expired r now then (.error 404 "Not found", TaskStorage.delete s1 tid)
      else
        match r.result with
        | none => (.error 404 "Result not available yet.", s1)
        | some res =>
            match optTruthy (modeKey mode res) with
            | none => (.error 404 (String.append mode.value " PDF not available."), s1)
            | some p =>
                if fileExists p then (.ok p, s1)
                else (.error 404 "File missing on server.", s1)

/-- Translation of the `GET /api/tasks/{task_id}/archive` handler
`download_archive`.  `dirExists` models
`output_dir.exists() and output_dir.is_dir()`; `archiveOk` models
whether `shutil.make_archive` produced the zip file; the successful
outcome is the archive's download name. -/
def download_archive (s : Store) (tid : String) (user : UserM)
    (dirExists : String → Bool) (archiveOk : Bool) (now : Nat) :
    HttpOutcome String × Store :=
  match TaskStorage.get s tid now with
  | (.error _, s1) => (.error 404 "Not found", s1)
  | (.deadlock, s1) => (.hang, s1)
  | (.ok r, s1) =>
      if r.owner ≠ user.username then (.error 404 "Not found", s1)
      else if _is_expired r now then (.error 404 "Not found", TaskStorage.delete s1 tid)
      else
        match r.result with
        | none => (.error 404 "Result not available yet.", s1)
        | some res =>
            let odStr :=
              match optTruthy res.output_dir with
              | some v => v
              | none => r.output_dir
            if dirExists odStr then
              if archiveOk then (.ok (String.append tid ".zip"), s1)
              else (.error 500 "Failed to create archive.", s1)
            else (.error 404 "Output directory missing on server.", s1)

/-- Translation of the `GET /api/tasks` handler `list_tasks`: the limit
is clamped to `[1, 100]` and the storage listing runs as the requesting
user. -/
def list_tasks (s : Store) (limit : Int) (user : UserM) (now : Nat) :
    List TaskRecord × Store :=
  TaskStorage.list s user.username (max 1 (min limit 100)) now

/-! ## Helper lemmas about the store -/

/-- After a delete, no row with the deleted id remains. -/
theorem findTask_delete (s : Store) (tid : String) :
    findTask (TaskStorage.delete s tid) tid = none := by
  rw [findTask, List.find?_eq_none]
  intro r hr
  rw [TaskStorage.delete, List.mem_filter] at hr
  simpa using hr.2

/-- Deleting an id that has no row is a no-op. -/
theorem delete_of_findTask_none (s : Store) (tid : String)
    (h : findTask s tid = none) : TaskStorage.delete s tid = s := by
  rw [findTask, List.find?_eq_none] at h
  rw [TaskStorage.delete, List.filter_eq_self]
  intro r hr
  simpa using h r hr

/-- Row lookup through a per-id rewrite of the table. -/
theorem findTask_map_ite (s : Store) (tid : String) (f : TaskRecord → TaskRecord)
    (hid : ∀ x, (f x).id = x.id) :
    findTask (s.map (fun x => if x.id == tid then f x else x)) tid =
      (findTask s tid).map f := by
  induction s with
  | nil => rfl
  | cons r rest ih =>
      show List.find? (fun x => x.id == tid)
          (List.map (fun x => if x.id == tid then f x else x) (r :: rest)) =
        Option.map f (List.find? (fun x => x.id == tid) (r :: rest))
      rw [List.map_cons, List.find?_cons, List.find?_cons]
      cases hb : (r.id == tid) with
      | true =>
          have hfb : ((f r).id == tid) = true := by rw [hid r]; exact hb
          show (match (f r).id == tid with
            | true => some (f r)
            | false => List.find? (fun x => x.id == tid)
                (List.map (fun x => if x.id == tid then f x else x) rest)) =
            some (f r)
          rw [hfb]
      | false =>
          show (match r.id == tid with
            | true => some r
            | false => List.find? (fun x => x.id == tid)
                (List.map (fun x => if x.id == tid then f x else x) rest)) =
            Option.map f (List.find? (fun x => x.id == tid) rest)
          rw [hb]
          exact ih

/-- Evaluation of `TaskStorage.update` when at least one recognized
field was supplied, the row exists and the rewritten row is not
expired. -/
theorem update_found (s : Store) (tid : String)
    (kwargs : List (String × UpdateVal)) (now : Nat) (r : TaskRecord)
    (hfind : findTask s tid = some r)
    (hne : (collectFields kwargs).isEmpty = false)
    (hexp : _is_expired (applyFields (collectFields kwargs) now r) now = false) :
    TaskStorage.update s tid kwargs now =
      (.ok (applyFields (collectFields kwargs) now r),
       s.map (fun x =>
         if x.id == tid then applyFields (collectFields kwargs) now x else x)) := by
  have hmap := findTask_map_ite s tid (applyFields (collectFields kwargs) now)
    (fun x => rfl)
  rw [TaskStorage.update, hne]
  simp only [Bool.false_eq_true, if_false, TaskStorage._fetch]
  rw [hmap, hfind]
  simp [hexp]

/-- Evaluation of `TaskStorage.append_event` when the row exists. -/
theorem append_event_found (s : Store) (tid : String) (ev : JEvent) (now : Nat)
    (r : TaskRecord) (hfind : findTask s tid = some r) :
    TaskStorage.append_event s tid ev now =
      .ok (s.map (fun x =>
        if x.id == tid then { x with events := r.events ++ [ev], updated_at := now }
        else x)) := by
  rw [TaskStorage.append_event, hfind]

/-- Expiry only looks at `created_at` and `retention_days`, which a
field update without `retention_days` preserves. -/
theorem is_expired_applyFields (fs : FieldSet) (now t : Nat) (r : TaskRecord)
    (hret : fs.retention_days = none) :
    _is_expired (applyFields fs now r) t = _is_expired r t := by
  simp [applyFields, _is_expired, hret]

/-- `TaskStorage.get` is `_fetch` under the storage lock. -/
theorem get_eq_fetch (s : Store) (tid : String) (now : Nat) :
    TaskStorage.get s tid now = TaskStorage._fetch s tid now := rfl

/-- `_fetch` on an absent id. -/
theorem fetch_none (s : Store) (tid : String) (now : Nat)
    (h : findTask s tid = none) :
    TaskStorage._fetch s tid now = (.error tid, s) := by
  rw [TaskStorage._fetch, h]

/-- `_fetch` on a present, non-expired row. -/
theorem fetch_some_live (s : Store) (tid : String) (now : Nat) (r : TaskRecord)
    (hfind : findTask s tid = some r) (hexp : _is_expired r now = false) :
    TaskStorage._fetch s tid now = (.ok r, s) := by
  rw [TaskStorage._fetch, hfind]
  simp [hexp]

/-- `_fetch` on a present but expired row deadlocks on the storage
lock: nothing is deleted and no `KeyError` is raised. -/
theorem fetch_some_expired (s : Store) (tid : String) (now : Nat) (r : TaskRecord)
    (hfind : findTask s tid = some r) (hexp : _is_expired r now = true) :
    TaskStorage._fetch s tid now = (.deadlock, s) := by
  rw [TaskStorage._fetch, hfind]
  simp [hexp]

/-! ## Demo values used by witnesses and counterexamples -/

/-- A live task record of owner `alice` with no retention limit. -/
def demoRecord : TaskRecord :=
  { id := "t1"
    owner := "alice"
    filename := "a.pdf"
    input_path := "/in/a.pdf"
    output_dir := "/out/t1"
    status := .PENDING
    created_at := 100
    updated_at := 100 }

/-- A guest-owned record with the guest retention window. -/
def demoGuestRecord : TaskRecord :=
  { demoRecord with id := "t2", owner := "guest", retention_days := some 7 }

/-! ## C9 -/

/-- C9: `TaskStorage.delete` is idempotent — deleting twice equals
deleting once, afterwards no record with the id exists, and deleting an
already-absent id succeeds (it leaves the store exactly as it was). -/
theorem delete_idempotent (s : Store) (tid : String) :
    TaskStorage.delete (TaskStorage.delete s tid) tid = TaskStorage.delete s tid ∧
    findTask (TaskStorage.delete s tid) tid = none ∧
    (findTask s tid = none → TaskStorage.delete s tid = s) := by
  refine ⟨?_, findTask_delete s tid, delete_of_findTask_none s tid⟩
  exact delete_of_findTask_none _ _ (findTask_delete s tid)

/-- Witness for C9 at a concrete store: deleting the absent id `zz`
from the one-record store leaves it unchanged. -/
theorem delete_idempotent_witness :
    TaskStorage.delete [demoRecord] "zz" = [demoRecord] :=
  (delete_idempotent [demoRecord] "zz").2.2 rfl

/-! ## C2 -/

/-- C2: code-bug exhibit.  On a live record `get` returns it and on an
absent id it raises the `KeyError`, as the claim states; but on an
expired record the claimed delete-then-`KeyError` never happens: the
expiry branch of `_fetch` awaits `delete`, which re-acquires the
non-reentrant storage lock already held by `get`, so the call
deadlocks — the record is still in the store and no `KeyError` is
raised. -/
theorem get_expired_deadlock :
    TaskStorage.get [demoRecord] "t1" 200 = (.ok demoRecord, [demoRecord]) ∧
    (TaskStorage.get [demoRecord] "zz" 200).1 = .error "zz" ∧
    findTask [demoGuestRecord] "t2" = some demoGuestRecord ∧
    _is_expired demoGuestRecord 691300 = true ∧
    TaskStorage.get [demoGuestRecord] "t2" 691300 =
      (.deadlock, [demoGuestRecord]) ∧
    findTask (TaskStorage.get [demoGuestRecord] "t2" 691300).2 "t2" =
      some demoGuestRecord :=
  ⟨rfl, rfl, rfl, by decide, rfl, rfl⟩

/-! ## C7 -/

/-- C7: whatever configuration the merge/validation pipeline produces
for a client override mapping, the settings returned by the builder have
the GUI flag off, the debug flag off, and the output directory equal to
the server-chosen per-task directory. -/
theorem build_settings_forced (pipeline : Except String SettingsModel)
    (output_dir : String) (s : SettingsModel)
    (h : _build_settings pipeline output_dir = .ok s) :
    s.basic.gui = false ∧ s.basic.debug = false ∧
      s.translation.output = output_dir := by
  cases pipeline with
  | error e => simp [_build_settings] at h
  | ok base =>
      simp only [_build_settings, Except.ok.injEq] at h
      subst h
      exact ⟨rfl, rfl, rfl⟩

/-- A pipeline outcome in which the client managed to request GUI mode,
debug mode and a custom output directory. -/
def demoPipeline : Except String SettingsModel :=
  .ok { basic := { gui := true, debug := true }
        translation := { output := "/client/choice" } }

/-- Witness for C7: the builder overrides the hostile client values. -/
theorem build_settings_forced_witness :
    _build_settings demoPipeline "/srv/tasks/t1/output" =
      .ok { basic := { gui := false, debug := false }
            translation := { output := "/srv/tasks/t1/output" } } ∧
    (false = false ∧ false = false ∧
      ("/srv/tasks/t1/output" : String) = "/srv/tasks/t1/output") :=
  ⟨rfl, build_settings_forced demoPipeline "/srv/tasks/t1/output" _ rfl⟩

/-! ## Helper lemmas about `TaskStorage.list` and `create` -/

/-- Freshly inserted rows are found once the rest of the table misses
the id. -/
theorem findTask_append_single (s : Store) (r : TaskRecord)
    (h : findTask s r.id = none) : findTask (s ++ [r]) r.id = some r := by
  rw [findTask, List.find?_append]
  rw [findTask] at h
  rw [h]
  simp

/-- While the cap has not been reached, the scan loop of
`TaskStorage.list` returns the first `limit - count` non-expired rows:
expired rows never count against the cap. -/
theorem scanRows_eq_take_filter (now : Nat) (limit : Int) :
    ∀ (rows : List TaskRecord) (count : Nat), (count : Int) + 1 ≤ limit →
      (scanRows now limit rows count).1 =
        (rows.filter (fun r => ! _is_expired r now)).take (limit - count).toNat := by
  intro rows
  induction rows with
  | nil => intro count h; simp [scanRows]
  | cons r rest ih =>
      intro count h
      cases hexp : _is_expired r now with
      | true =>
          simp only [scanRows, hexp, if_true, List.filter_cons, Bool.not_true,
            Bool.false_eq_true, if_false]
          exact ih count h
      | false =>
          by_cases hcap : ((count : Int) + 1 ≥ limit)
          · have hlim : limit - count = 1 := by omega
            simp only [scanRows, hexp, Bool.false_eq_true, if_false, hcap,
              if_true, List.filter_cons, Bool.not_false, hlim]
            rfl
          · have hk : (limit - count).toNat = (limit - (count + 1)).toNat + 1 := by
              omega
            simp only [scanRows, hexp, Bool.false_eq_true, if_false, hcap,
              List.filter_cons, Bool.not_false, if_true, hk,
              List.take_succ_cons]
            have := ih (count + 1) (by omega)
            rw [this]
            norm_cast

/-- The records returned by the scan loop all come from the scanned
rows. -/
theorem scanRows_subset (now : Nat) (limit : Int) :
    ∀ (rows : List TaskRecord) (count : Nat) (r : TaskRecord),
      r ∈ (scanRows now limit rows count).1 → r ∈ rows := by
  intro rows
  induction rows with
  | nil => intro count r h; simp [scanRows] at h
  | cons x rest ih =>
      intro count r h
      rw [scanRows] at h
      by_cases hexp : _is_expired x now = true
      · simp only [hexp, if_true] at h
        exact List.mem_cons_of_mem x (ih count r h)
      · simp only [hexp, Bool.false_eq_true, if_false] at h
        by_cases hcap : ((count : Int) + 1 ≥ limit)
        · simp only [hcap, if_true, List.mem_singleton] at h
          simp [h]
        · simp only [hcap, if_false, List.mem_cons] at h
          cases h with
          | inl h => simp [h]
          | inr h => exact List.mem_cons_of_mem x (ih (count + 1) r h)

/-- When the cap is at least `1`, `TaskStorage.list` is the first
`limit` non-expired owner rows in newest-first order. -/
theorem list_eq_take_filter (s : Store) (owner : String) (limit : Int)
    (now : Nat) (hlim : 1 ≤ limit) :
    (TaskStorage.list s owner limit now).1 =
      ((sortByCreatedDesc (s.filter (fun r => r.owner == owner))).filter
        (fun r => ! _is_expired r now)).take limit.toNat := by
  have h := scanRows_eq_take_filter now limit
    (sortByCreatedDesc (s.filter (fun r => r.owner == owner))) 0 (by omega)
  simpa [TaskStorage.list] using h

/-- A live owner row is listed whenever the cap admits the whole
table. -/
theorem mem_list_of_le_limit (s : Store) (owner : String) (limit : Int)
    (now : Nat) (r : TaskRecord) (hr : r ∈ s) (hown : r.owner = owner)
    (hexp : _is_expired r now = false) (hlim : (s.length : Int) ≤ limit) :
    r ∈ (TaskStorage.list s owner limit now).1 := by
  have hpos : 1 ≤ limit := by
    have h1 : 0 < s.length := List.length_pos.mpr (List.ne_nil_of_mem hr)
    omega
  rw [list_eq_take_filter s owner limit now hpos]
  have hmem : r ∈ (sortByCreatedDesc (s.filter (fun x => x.owner == owner))).filter
      (fun x => ! _is_expired x now) := by
    rw [List.mem_filter]
    refine ⟨?_, by simp [hexp]⟩
    rw [sortByCreatedDesc, List.mem_mergeSort, List.mem_filter]
    exact ⟨hr, by simp [hown]⟩
  have hlen : ((sortByCreatedDesc (s.filter (fun x => x.owner == owner))).filter
      (fun x => ! _is_expired x now)).length ≤ limit.toNat := by
    have h1 := List.length_filter_le (fun x => ! _is_expired x now)
      (sortByCreatedDesc (s.filter (fun x => x.owner == owner)))
    have h2 : (sortByCreatedDesc (s.filter (fun x => x.owner == owner))).length =
        (s.filter (fun x => x.owner == owner)).length := by
      rw [sortByCreatedDesc, List.length_mergeSort]
    have h3 := List.length_filter_le (fun x => x.owner == owner) s
    omega
  rw [List.take_of_length_le hlen]
  exact hmem

/-! ## Helper lemmas about `TranslationService.submit` -/

/-- The `fields` dict the failure path of `submit` builds. -/
def failFields (msg : String) : List (String × UpdateVal) :=
  [("status", UpdateVal.vstatus .FAILED), ("message", UpdateVal.vstr (some msg))]

/-- A record created at time `now` by a user with a nonnegative (or
absent) retention window is not expired at `now`. -/
theorem submitRecord_not_expired (user : UserM) (tid name ip od : String)
    (now : Nat) (hret : ∀ d, user.retention_days = some d → 0 ≤ d) :
    _is_expired (submitRecord user tid name ip od now) now = false := by
  show (match user.retention_days with
    | none => false
    | some d => decide ((now : Int) - (now : Int) > d * 86400)) = false
  cases hrd : user.retention_days with
  | none => rfl
  | some d =>
      have hd := hret d hrd
      simp only [decide_eq_false_iff_not]
      omega

/-- Inserting the fresh record succeeds on a fresh id. -/
theorem create_submitRecord (s : Store) (user : UserM)
    (tid name ip od : String) (now : Nat) (hfresh : findTask s tid = none) :
    TaskStorage.create s (submitRecord user tid name ip od now) =
      .ok (s ++ [submitRecord user tid name ip od now]) := by
  rw [TaskStorage.create]
  rw [show findTask s (submitRecord user tid name ip od now).id = none from hfresh]
  rfl

/-- Full evaluation of the failure path of `submit`: the record is
created, marked `FAILED` with the message, the error is re-raised and
the runner is not scheduled. -/
theorem submit_error_eval (s : Store) (user : UserM)
    (tid name ip od msg : String) (now : Nat)
    (hfresh : findTask s tid = none)
    (hret : ∀ d, user.retention_days = some d → 0 ≤ d) :
    TranslationService.submit s user tid name ip od (.error msg) now =
      (.error msg,
       (s ++ [submitRecord user tid name ip od now]).map (fun x =>
         if x.id == tid then
           applyFields (collectFields (failFields msg)) now x
         else x),
       false) := by
  have hfind1 : findTask (s ++ [submitRecord user tid name ip od now]) tid =
      some (submitRecord user tid name ip od now) :=
    findTask_append_single s _ hfresh
  have hne : (collectFields (failFields msg)).isEmpty = false := rfl
  have hexpired : _is_expired (applyFields (collectFields (failFields msg)) now
      (submitRecord user tid name ip od now)) now = false := by
    rw [is_expired_applyFields _ _ _ _ rfl]
    exact submitRecord_not_expired user tid name ip od now hret
  have hupd := update_found _ tid (failFields msg) now _ hfind1 hne hexpired
  rw [TranslationService.submit]
  simp only [create_submitRecord s user tid name ip od now hfresh]
  simp only [_build_settings]
  rw [show TaskStorage.update (s ++ [submitRecord user tid name ip od now]) tid
      [("status", UpdateVal.vstatus .FAILED), ("message", UpdateVal.vstr (some msg))]
      now = TaskStorage.update (s ++ [submitRecord user tid name ip od now]) tid
      (failFields msg) now from rfl]
  rw [hupd]

/-- The record looked up after the failure path of `submit`. -/
theorem submit_error_findTask (s : Store) (user : UserM)
    (tid name ip od msg : String) (now : Nat)
    (hfresh : findTask s tid = none)
    (hret : ∀ d, user.retention_days = some d → 0 ≤ d) :
    findTask (TranslationService.submit s user tid name ip od
        (.error msg) now).2.1 tid =
      some (applyFields (collectFields (failFields msg)) now
        (submitRecord user tid name ip od now)) := by
  rw [submit_error_eval s user tid name ip od msg now hfresh hret]
  have hfind1 : findTask (s ++ [submitRecord user tid name ip od now]) tid =
      some (submitRecord user tid name ip od now) :=
    findTask_append_single s _ hfresh
  show findTask ((s ++ [submitRecord user tid name ip od now]).map (fun x =>
      if x.id == tid then applyFields (collectFields (failFields msg)) now x
      else x)) tid = _
  rw [findTask_map_ite (s ++ [submitRecord user tid name ip od now]) tid
    (applyFields (collectFields (failFields msg)) now) (fun x => rfl), hfind1]
  rfl

/-- The record looked up after the success path of `submit`. -/
theorem submit_ok_findTask (s : Store) (user : UserM)
    (tid name ip od : String) (base : SettingsModel) (now : Nat)
    (hfresh : findTask s tid = none) :
    findTask (TranslationService.submit s user tid name ip od
        (.ok base) now).2.1 tid =
      some (submitRecord user tid name ip od now) := by
  rw [TranslationService.submit]
  simp only [create_submitRecord s user tid name ip od now hfresh]
  simp only [_build_settings]
  exact findTask_append_single s _ hfresh

/-! ## C10 -/

/-- C10: code-bug exhibit.  The identity and inheritance parts hold: an
unauthenticated submission is stored under owner `guest` with
`retention_days = 7` (the guest identity), a registered user's
submission inherits that user's `retention_days`, and a record without
`retention_days` is never treated as expired.  But an over-age guest
record does not "read as not-found, being deleted on first observing
read": that read deadlocks on the storage lock and the record stays in
the store. -/
theorem guest_retention_bug :
    (get_user_or_guest none).username = "guest" ∧
    (get_user_or_guest none).retention_days = some 7 ∧
    (findTask (TranslationService.submit [] (get_user_or_guest none)
        "t9" "b.pdf" "/in/b.pdf" "/out/t9" (.ok {}) 50).2.1 "t9").map
        (fun rec => (rec.owner, rec.retention_days)) =
      some ("guest", some 7) ∧
    (findTask (TranslationService.submit []
        { username := "u7", retention_days := some 30 }
        "t8" "d.pdf" "/in/d.pdf" "/out/t8" (.ok {}) 50).2.1 "t8").map
        (fun rec => (rec.owner, rec.retention_days)) =
      some ("u7", some 30) ∧
    _is_expired demoRecord 999999999 = false ∧
    _is_expired demoGuestRecord 691300 = true ∧
    TaskStorage.get [demoGuestRecord] "t2" 691300 =
      (.deadlock, [demoGuestRecord]) :=
  ⟨rfl, rfl, rfl, rfl, rfl, by decide, rfl⟩

/-! ## C5 -/

/-- C5: when settings building fails with `InvalidConfigError`, the
already-created record is marked `FAILED` with the validation message,
the error is re-raised to the caller, the runner is never scheduled, and
the record remains in the store, visible to an owner-scoped listing. -/
theorem submit_invalid_config (s : Store) (user : UserM)
    (tid name ip od msg : String) (now : Nat)
    (hfresh : findTask s tid = none)
    (hret : ∀ d, user.retention_days = some d → 0 ≤ d) :
    (TranslationService.submit s user tid name ip od (.error msg) now).1 =
      .error msg ∧
    (TranslationService.submit s user tid name ip od (.error msg) now).2.2 =
      false ∧
    (findTask (TranslationService.submit s user tid name ip od
        (.error msg) now).2.1 tid).map
        (fun rec => (rec.status, rec.message, rec.owner)) =
      some (TaskStatus.FAILED, some msg, user.username) ∧
    tid ∈ ((TaskStorage.list (TranslationService.submit s user tid name ip od
        (.error msg) now).2.1 user.username ((s.length : Int) + 1) now).1.map
        (fun rec => rec.id)) := by
  have heval := submit_error_eval s user tid name ip od msg now hfresh hret
  have hfind := submit_error_findTask s user tid name ip od msg now hfresh hret
  refine ⟨by rw [heval], by rw [heval], ?_, ?_⟩
  · rw [hfind]
    rfl
  · refine List.mem_map.mpr
      ⟨applyFields (collectFields (failFields msg)) now
        (submitRecord user tid name ip od now), ?_, rfl⟩
    refine mem_list_of_le_limit _ user.username _ now
      (applyFields (collectFields (failFields msg)) now
        (submitRecord user tid name ip od now)) ?_ rfl ?_ ?_
    · exact List.mem_of_find?_eq_some hfind
    · rw [is_expired_applyFields _ _ _ _ rfl]
      exact submitRecord_not_expired user tid name ip od now hret
    · rw [heval]
      simp only [List.length_map, List.length_append, List.length_cons,
        List.length_nil]
      push_cast
      omega

/-- Witness for C5: a concrete failing submission of user `alice`. -/
theorem submit_invalid_config_witness :
    findTask [] "t5" = none ∧
    (TranslationService.submit [] { username := "alice" } "t5" "c.pdf"
        "/in/c.pdf" "/out/t5" (.error "bad config") 70).1 = .error "bad config" ∧
    (TranslationService.submit [] { username := "alice" } "t5" "c.pdf"
        "/in/c.pdf" "/out/t5" (.error "bad config") 70).2.2 = false := by
  have h := submit_invalid_config [] { username := "alice" } "t5" "c.pdf"
    "/in/c.pdf" "/out/t5" "bad config" 70 rfl (fun d hd => by cases hd)
  exact ⟨rfl, h.1, h.2.1⟩

/-! ## Sortedness and deletion helpers for `TaskStorage.list` -/

/-- The owner rows come out of the sort newest first. -/
theorem sortByCreatedDesc_sorted (rows : List TaskRecord) :
    (sortByCreatedDesc rows).Pairwise
      (fun a b => b.created_at ≤ a.created_at) := by
  have htrans : ∀ (a b c : TaskRecord),
      (decide (b.created_at ≤ a.created_at)) = true →
      (decide (c.created_at ≤ b.created_at)) = true →
      (decide (c.created_at ≤ a.created_at)) = true := by
    intro a b c hab hbc
    simp only [decide_eq_true_eq] at *
    omega
  have htotal : ∀ (a b : TaskRecord),
      ((decide (b.created_at ≤ a.created_at)) ||
        (decide (a.created_at ≤ b.created_at))) = true := by
    intro a b
    simp only [Bool.or_eq_true, decide_eq_true_eq]
    omega
  have hs := List.sorted_mergeSort htrans htotal rows
  rw [sortByCreatedDesc]
  exact hs.imp (fun hab => by simpa using hab)

/-- A delete cannot resurrect a missing row. -/
theorem findTask_delete_of_none (s : Store) (tid j : String)
    (h : findTask s tid = none) :
    findTask (TaskStorage.delete s j) tid = none := by
  rw [findTask, List.find?_eq_none] at *
  intro r hr
  exact h r (List.mem_of_mem_filter hr)

/-- Nor can a sequence of deletes. -/
theorem findTask_foldl_delete_of_none (dels : List String) :
    ∀ (s : Store) (tid : String), findTask s tid = none →
      findTask (dels.foldl (fun st i => TaskStorage.delete st i) s) tid = none := by
  induction dels with
  | nil => intro s tid h; exact h
  | cons j rest ih =>
      intro s tid h
      exact ih _ tid (findTask_delete_of_none s tid j h)

/-- Every id in the delete list is gone after the delete sequence. -/
theorem findTask_foldl_delete (dels : List String) :
    ∀ (s : Store) (tid : String), tid ∈ dels →
      findTask (dels.foldl (fun st i => TaskStorage.delete st i) s) tid = none := by
  induction dels with
  | nil => intro s tid h; cases h
  | cons j rest ih =>
      intro s tid h
      rcases List.mem_cons.mp h with h1 | h2
      · subst h1
        exact findTask_foldl_delete_of_none rest _ tid (findTask_delete s tid)
      · exact ih _ tid h2

/-! ## C8 -/

/-- C8 (amended: cap at least 1): `TaskStorage.list` returns only live
records of the owner, newest first, at most `limit` of them, equal to
the first `limit` survivors of the expiry filter (so expired rows never
count against the cap), and every id deleted during the scan is gone
from the resulting store. -/
theorem list_spec (s : Store) (owner : String) (limit : Int) (now : Nat)
    (hlim : 1 ≤ limit) :
    (∀ r, r ∈ (TaskStorage.list s owner limit now).1 →
        r.owner = owner ∧ _is_expired r now = false) ∧
    (TaskStorage.list s owner limit now).1.Pairwise
      (fun a b => b.created_at ≤ a.created_at) ∧
    ((TaskStorage.list s owner limit now).1.length : Int) ≤ limit ∧
    (TaskStorage.list s owner limit now).1 =
      ((sortByCreatedDesc (s.filter (fun r => r.owner == owner))).filter
        (fun r => ! _is_expired r now)).take limit.toNat ∧
    (∀ tid, tid ∈ (scanRows now limit
        (sortByCreatedDesc (s.filter (fun r => r.owner == owner))) 0).2 →
      findTask (TaskStorage.list s owner limit now).2 tid = none) := by
  have heq := list_eq_take_filter s owner limit now hlim
  refine ⟨?_, ?_, ?_, heq, ?_⟩
  · intro r hr
    rw [heq] at hr
    have h1 : r ∈ (sortByCreatedDesc (s.filter (fun x => x.owner == owner))).filter
        (fun x => ! _is_expired x now) := List.mem_of_mem_take hr
    rw [List.mem_filter] at h1
    have h2 := h1.1
    rw [sortByCreatedDesc, List.mem_mergeSort, List.mem_filter] at h2
    refine ⟨by simpa using h2.2, by simpa using h1.2⟩
  · rw [heq]
    have hs := sortByCreatedDesc_sorted (s.filter (fun r => r.owner == owner))
    have hf : ((sortByCreatedDesc (s.filter (fun r => r.owner == owner))).filter
        (fun r => ! _is_expired r now)).Pairwise
        (fun a b => b.created_at ≤ a.created_at) :=
      hs.sublist (List.filter_sublist _)
    exact hf.sublist (List.take_sublist _ _)
  · rw [heq]
    have h1 : (((sortByCreatedDesc (s.filter (fun r => r.owner == owner))).filter
        (fun r => ! _is_expired r now)).take limit.toNat).length ≤ limit.toNat := by
      rw [List.length_take]
      omega
    omega
  · intro tid hmem
    exact findTask_foldl_delete _ s tid hmem

/-- Witness for C8 at a concrete store and cap. -/
theorem list_spec_witness :
    (1 : Int) ≤ 20 ∧
    (TaskStorage.list [demoRecord] "alice" 20 200).1 =
      ((sortByCreatedDesc (([demoRecord] : Store).filter
        (fun r => r.owner == "alice"))).filter
        (fun r => ! _is_expired r 200)).take (20 : Int).toNat ∧
    ((TaskStorage.list [demoRecord] "alice" 20 200).1.length : Int) ≤ 20 := by
  have h := list_spec [demoRecord] "alice" 20 200 (by decide)
  exact ⟨by decide, h.2.2.2.1, h.2.2.1⟩

/-- Counterexample to C8 as stated: with `limit = 0` the scan's
post-append cap check (`if len(records) >= limit: break`) still lets one
record through, so the result is not capped at `limit`. -/
theorem list_limit_zero_counterexample :
    (TaskStorage.list [demoRecord] "alice" 0 200).1 = [demoRecord] ∧
    ¬ (((TaskStorage.list [demoRecord] "alice" 0 200).1.length : Int) ≤ 0) := by
  have h1 : (TaskStorage.list [demoRecord] "alice" 0 200).1 = [demoRecord] := by
    show (scanRows 200 0 (sortByCreatedDesc
      (([demoRecord] : Store).filter (fun r => r.owner == "alice"))) 0).1 = _
    rw [show ([demoRecord] : Store).filter (fun r => r.owner == "alice") =
      [demoRecord] from rfl]
    rw [sortByCreatedDesc, List.mergeSort_singleton]
    rw [scanRows]
    rw [show _is_expired demoRecord 200 = false from rfl]
    simp
  refine ⟨h1, ?_⟩
  rw [h1]
  decide

/-! ## C1 -/

/-- C1: code-bug exhibit.  For a live record of `alice`, requests by
`bob` are answered 404 "Not found" on all three read paths, `bob`'s
listing is empty, and in no case below is the record or an artifact of
it ever returned; but for an expired cross-owner record the claimed
404 never materialises — the handlers hang on the storage deadlock
inside `storage.get`, before the ownership gate is even reached. -/
theorem owner_isolation_bug :
    demoRecord.owner = "alice" ∧
    (get_task [demoRecord] "t1" { username := "bob" } 200).1 =
      .error 404 "Not found" ∧
    (download_result [demoRecord] "t1" ResultMode.mono { username := "bob" }
      (fun _ => true) 200).1 = .error 404 "Not found" ∧
    (download_archive [demoRecord] "t1" { username := "bob" }
      (fun _ => true) true 200).1 = .error 404 "Not found" ∧
    (TaskStorage.list [demoRecord] "bob" 20 200).1 = [] ∧
    demoGuestRecord.owner ≠ "bob" ∧
    _is_expired demoGuestRecord 691300 = true ∧
    (get_task [demoGuestRecord] "t2" { username := "bob" } 691300).1 = .hang ∧
    (download_result [demoGuestRecord] "t2" ResultMode.mono { username := "bob" }
      (fun _ => true) 691300).1 = .hang ∧
    (download_archive [demoGuestRecord] "t2" { username := "bob" }
      (fun _ => true) true 691300).1 = .hang := by
  have hget1 : TaskStorage.get [demoRecord] "t1" 200 =
      (.ok demoRecord, [demoRecord]) := rfl
  have hget2 : TaskStorage.get [demoGuestRecord] "t2" 691300 =
      (.deadlock, [demoGuestRecord]) := rfl
  have hown : demoRecord.owner ≠ ({ username := "bob" } : UserM).username := by
    decide
  refine ⟨rfl, ?_, ?_, ?_, ?_, by decide, by decide, ?_, ?_, ?_⟩
  · rw [get_task]
    simp only [hget1]
    rw [if_pos hown]
  · rw [download_result]
    simp only [hget1]
    rw [if_pos hown]
  · rw [download_archive]
    simp only [hget1]
    rw [if_pos hown]
  · show (scanRows 200 20 (sortByCreatedDesc
      (([demoRecord] : Store).filter (fun r => r.owner == "bob"))) 0).1 = []
    rw [show ([demoRecord] : Store).filter (fun r => r.owner == "bob") = [] from rfl,
      sortByCreatedDesc, List.mergeSort_nil]
    rfl
  · rw [get_task]
    simp only [hget2]
  · rw [download_result]
    simp only [hget2]
  · rw [download_archive]
    simp only [hget2]

/-! ## C3 -/

/-- A keyword pair whose key is none of the five recognized column
names leaves the `fields` dict untouched. -/
theorem applyKwarg_unrecognized (fs : FieldSet) (k : String) (v : UpdateVal)
    (h1 : k ≠ "status") (h2 : k ≠ "progress") (h3 : k ≠ "message")
    (h4 : k ≠ "result") (h5 : k ≠ "retention_days") :
    applyKwarg fs (k, v) = fs := by
  rw [applyKwarg]
  simp [h1, h2, h3, h4, h5]

/-- Dropping an unrecognized keyword pair anywhere in the argument list
does not change the collected `fields` dict. -/
theorem collectFields_ignores (l1 l2 : List (String × UpdateVal))
    (k : String) (v : UpdateVal)
    (h1 : k ≠ "status") (h2 : k ≠ "progress") (h3 : k ≠ "message")
    (h4 : k ≠ "result") (h5 : k ≠ "retention_days") :
    collectFields (l1 ++ (k, v) :: l2) = collectFields (l1 ++ l2) := by
  rw [collectFields, collectFields, List.foldl_append, List.foldl_append,
    List.foldl_cons, applyKwarg_unrecognized _ k v h1 h2 h3 h4 h5]

/-- C3 (amended): unrecognized fields are ignored by `update`; on a live
record, a call with at least one recognized field merges exactly the
recognized columns, leaves every other column unchanged and refreshes
`updated_at`; a call with no recognized field returns the record with
the store untouched (and without refreshing `updated_at`); and `update`
fails with the `KeyError` when no record with the id exists. -/
theorem update_spec (s : Store) (tid : String)
    (kwargs l1 l2 : List (String × UpdateVal)) (k : String) (v : UpdateVal)
    (now : Nat) :
    (k ≠ "status" → k ≠ "progress" → k ≠ "message" → k ≠ "result" →
      k ≠ "retention_days" →
      TaskStorage.update s tid (l1 ++ (k, v) :: l2) now =
        TaskStorage.update s tid (l1 ++ l2) now) ∧
    (∀ r, findTask s tid = some r →
      (collectFields kwargs).isEmpty = false →
      _is_expired (applyFields (collectFields kwargs) now r) now = false →
      (TaskStorage.update s tid kwargs now).1 =
        .ok (applyFields (collectFields kwargs) now r) ∧
      (applyFields (collectFields kwargs) now r).id = r.id ∧
      (applyFields (collectFields kwargs) now r).owner = r.owner ∧
      (applyFields (collectFields kwargs) now r).filename = r.filename ∧
      (applyFields (collectFields kwargs) now r).input_path = r.input_path ∧
      (applyFields (collectFields kwargs) now r).output_dir = r.output_dir ∧
      (applyFields (collectFields kwargs) now r).created_at = r.created_at ∧
      (applyFields (collectFields kwargs) now r).retention_days =
        (collectFields kwargs).retention_days.getD r.retention_days ∧
      (applyFields (collectFields kwargs) now r).events = r.events ∧
      (applyFields (collectFields kwargs) now r).updated_at = now ∧
      (applyFields (collectFields kwargs) now r).status =
        (collectFields kwargs).status.getD r.status ∧
      (applyFields (collectFields kwargs) now r).progress =
        (collectFields kwargs).progress.getD r.progress ∧
      (applyFields (collectFields kwargs) now r).message =
        (collectFields kwargs).message.getD r.message ∧
      (applyFields (collectFields kwargs) now r).result =
        (collectFields kwargs).result.getD r.result) ∧
    ((collectFields kwargs).isEmpty = true → ∀ r, findTask s tid = some r →
      _is_expired r now = false →
      TaskStorage.update s tid kwargs now = (.ok r, s)) ∧
    (findTask s tid = none →
      (TaskStorage.update s tid kwargs now).1 = .error tid) := by
  refine ⟨?_, ?_, ?_, ?_⟩
  · intro h1 h2 h3 h4 h5
    rw [TaskStorage.update, TaskStorage.update,
      collectFields_ignores l1 l2 k v h1 h2 h3 h4 h5]
  · intro r hfind hne hexp
    refine ⟨?_, rfl, rfl, rfl, rfl, rfl, rfl, rfl, rfl, rfl, rfl, rfl, rfl, rfl⟩
    rw [update_found s tid kwargs now r hfind hne hexp]
  · intro hie r hfind hexp
    rw [TaskStorage.update, hie, if_pos rfl, fetch_some_live s tid now r hfind hexp]
  · intro h
    have hmap : findTask (s.map (fun x => if x.id == tid then
        applyFields (collectFields kwargs) now x else x)) tid = none := by
      rw [findTask_map_ite s tid (applyFields (collectFields kwargs) now)
        (fun x => rfl), h]
      rfl
    rw [TaskStorage.update]
    cases hie : (collectFields kwargs).isEmpty with
    | true => rw [if_pos rfl, fetch_none s tid now h]
    | false =>
        rw [if_neg (by simp), fetch_none _ tid now hmap]

/-- Witness for C3: updating the demo record's status merges the status
column and refreshes `updated_at`. -/
theorem update_spec_witness :
    findTask [demoRecord] "t1" = some demoRecord ∧
    (collectFields [("status", UpdateVal.vstatus .RUNNING)]).isEmpty = false ∧
    (TaskStorage.update [demoRecord] "t1"
        [("status", UpdateVal.vstatus .RUNNING)] 300).1 =
      .ok (applyFields (collectFields [("status", UpdateVal.vstatus .RUNNING)])
        300 demoRecord) ∧
    (applyFields (collectFields [("status", UpdateVal.vstatus .RUNNING)])
      300 demoRecord).status = .RUNNING ∧
    (applyFields (collectFields [("status", UpdateVal.vstatus .RUNNING)])
      300 demoRecord).updated_at = 300 := by
  have h := (update_spec [demoRecord] "t1"
    [("status", UpdateVal.vstatus .RUNNING)] [] [] "zz" (UpdateVal.vother "")
    300).2.1 demoRecord rfl rfl (by rfl)
  exact ⟨rfl, rfl, h.1, rfl, rfl⟩

/-- Counterexample to C3 as stated: an update call supplying only an
unrecognized field returns without touching the row, so `updated_at`
keeps its old value `100` instead of being refreshed to `999`. -/
theorem update_refresh_counterexample :
    (TaskStorage.update [demoRecord] "t1" [("foo", UpdateVal.vother "x")]
        999).1 = .ok demoRecord ∧
    (TaskStorage.update [demoRecord] "t1" [("foo", UpdateVal.vother "x")]
        999).2 = [demoRecord] ∧
    demoRecord.updated_at = 100 ∧ (100 : Nat) ≠ 999 := by
  exact ⟨rfl, rfl, rfl, by decide⟩

/-! ## Runner helper lemmas (C4 and C6) -/

/-- Expiry ignores the event log and `updated_at`. -/
theorem is_expired_set_events (r : TaskRecord) (E : List JEvent) (u t : Nat) :
    _is_expired { r with events := E, updated_at := u } t = _is_expired r t := rfl

/-- Tail of one loop iteration, after the event was appended (the
record's log is `B ++ [sanitized e]`) and the optional progress update
ran: the terminal branches settle the task, the other branch recurses
(`ih` is the induction hypothesis for the remaining stream). -/
theorem runBody_ok_tail (tid outSet : String) (now : Nat) (e : Event)
    (rest : List Event) (B : List JEvent)
    (ih : ∀ (s' : Store) (r' : TaskRecord), findTask s' tid = some r' →
      _is_expired r' now = false →
      ∃ s1 r1, runBody tid outSet now s' rest = .ok s1 ∧
        findTask s1 tid = some r1 ∧
        r1.created_at = r'.created_at ∧
        r1.retention_days = r'.retention_days ∧
        r1.events = r'.events ++ (takeUntilTerminal rest).map _sanitize_event ∧
        ((∀ e' ∈ rest, eventType e' ≠ some "finish" ∧ eventType e' ≠ some "error") →
          r1.status = .DONE ∧ r1.progress = 1 ∧ r1.message = some "Completed"))
    (s2 : Store) (r2 : TaskRecord)
    (hfind2 : findTask s2 tid = some r2)
    (hexp2 : _is_expired r2 now = false)
    (hev2 : r2.events = B ++ [_sanitize_event e]) :
    ∃ s1 r1,
      (if eventType e = some "finish" then
        match TaskStorage.update s2 tid
          [("status", UpdateVal.vstatus .DONE), ("progress", UpdateVal.vfloat 1),
           ("message", UpdateVal.vstr (some "Completed")),
           ("result", UpdateVal.vresult (finishResult
             (_extract_result (lookupKey e "translate_result")) outSet))] now with
        | (.error m, s3) => RunOutcome.exn s3 m
        | (.deadlock, s3) => RunOutcome.hung s3
        | (.ok _, s3) => RunOutcome.ok s3
      else if eventType e = some "error" then
        match TaskStorage.update s2 tid
          [("status", UpdateVal.vstatus .FAILED),
           ("message", UpdateVal.vstr (some (match lookupKey e "error" with
             | none => "Translation failed"
             | some v => pyStr v)))] now with
        | (.error m, s3) => RunOutcome.exn s3 m
        | (.deadlock, s3) => RunOutcome.hung s3
        | (.ok _, s3) => RunOutcome.ok s3
      else runBody tid outSet now s2 rest) = .ok s1 ∧
      findTask s1 tid = some r1 ∧
      r1.created_at = r2.created_at ∧
      r1.retention_days = r2.retention_days ∧
      r1.events = B ++ (takeUntilTerminal (e :: rest)).map _sanitize_event ∧
      ((∀ e' ∈ e :: rest, eventType e' ≠ some "finish" ∧ eventType e' ≠ some "error") →
        r1.status = .DONE ∧ r1.progress = 1 ∧ r1.message = some "Completed") := by
  by_cases hfin : eventType e = some "finish"
  · rw [if_pos hfin]
    have hexpF : _is_expired (applyFields (collectFields
        [("status", UpdateVal.vstatus .DONE), ("progress", UpdateVal.vfloat 1),
         ("message", UpdateVal.vstr (some "Completed")),
         ("result", UpdateVal.vresult (finishResult
           (_extract_result (lookupKey e "translate_result")) outSet))]) now r2)
        now = false := by
      rw [is_expired_applyFields _ _ _ _ rfl]; exact hexp2
    have hupdF := update_found s2 tid
      [("status", UpdateVal.vstatus .DONE), ("progress", UpdateVal.vfloat 1),
       ("message", UpdateVal.vstr (some "Completed")),
       ("result", UpdateVal.vresult (finishResult
         (_extract_result (lookupKey e "translate_result")) outSet))] now r2
      hfind2 rfl hexpF
    simp only [hupdF]
    refine ⟨_, applyFields (collectFields
      [("status", UpdateVal.vstatus .DONE), ("progress", UpdateVal.vfloat 1),
       ("message", UpdateVal.vstr (some "Completed")),
       ("result", UpdateVal.vresult (finishResult
         (_extract_result (lookupKey e "translate_result")) outSet))]) now r2,
      rfl, ?_, rfl, rfl, ?_, ?_⟩
    · rw [findTask_map_ite s2 tid (applyFields (collectFields
        [("status", UpdateVal.vstatus .DONE), ("progress", UpdateVal.vfloat 1),
         ("message", UpdateVal.vstr (some "Completed")),
         ("result", UpdateVal.vresult (finishResult
           (_extract_result (lookupKey e "translate_result")) outSet))]) now)
        (fun x => rfl), hfind2]
      rfl
    · rw [takeUntilTerminal, if_pos (Or.inl hfin)]
      show r2.events = B ++ [_sanitize_event e]
      exact hev2
    · intro h
      exact ⟨rfl, rfl, rfl⟩
  · rw [if_neg hfin]
    by_cases herr : eventType e = some "error"
    · rw [if_pos herr]
      have hexpE : _is_expired (applyFields (collectFields
          [("status", UpdateVal.vstatus .FAILED),
           ("message", UpdateVal.vstr (some (match lookupKey e "error" with
             | none => "Translation failed"
             | some v => pyStr v)))]) now r2) now = false := by
        rw [is_expired_applyFields _ _ _ _ rfl]; exact hexp2
      have hupdE := update_found s2 tid
        [("status", UpdateVal.vstatus .FAILED),
         ("message", UpdateVal.vstr (some (match lookupKey e "error" with
           | none => "Translation failed"
           | some v => pyStr v)))] now r2 hfind2 rfl hexpE
      simp only [hupdE]
      refine ⟨_, applyFields (collectFields
        [("status", UpdateVal.vstatus .FAILED),
         ("message", UpdateVal.vstr (some (match lookupKey e "error" with
           | none => "Translation failed"
           | some v => pyStr v)))]) now r2, rfl, ?_, rfl, rfl, ?_, ?_⟩
      · rw [findTask_map_ite s2 tid (applyFields (collectFields
          [("status", UpdateVal.vstatus .FAILED),
           ("message", UpdateVal.vstr (some (match lookupKey e "error" with
             | none => "Translation failed"
             | some v => pyStr v)))]) now) (fun x => rfl), hfind2]
        rfl
      · rw [takeUntilTerminal, if_pos (Or.inr herr)]
        show r2.events = B ++ [_sanitize_event e]
        exact hev2
      · intro h
        exact absurd herr (h e (List.mem_cons_self e rest)).2
    · rw [if_neg herr]
      obtain ⟨s1, r1, hrun, hf1, hc1, hr1, hev1, hterm1⟩ := ih s2 r2 hfind2 hexp2
      refine ⟨s1, r1, hrun, hf1, hc1, hr1, ?_, ?_⟩
      · rw [takeUntilTerminal, if_neg (not_or.mpr ⟨hfin, herr⟩), List.map_cons,
          hev1, hev2, List.append_assoc, List.singleton_append]
      · intro h
        exact hterm1 (fun e' he' => h e' (List.mem_cons_of_mem e he'))

/-- Master lemma for the event-consumption loop: starting from a live
record, the loop succeeds, the record keeps its identity data, its event
log grows by exactly the sanitized consumed prefix, and when the stream
holds no terminal event the loop ends on the `DONE`/`1.0`/`Completed`
fallback. -/
theorem runBody_ok (tid outSet : String) (now : Nat) (events : List Event) :
    ∀ (s : Store) (r : TaskRecord),
      findTask s tid = some r → _is_expired r now = false →
      ∃ s1 r1,
        runBody tid outSet now s events = .ok s1 ∧
        findTask s1 tid = some r1 ∧
        r1.created_at = r.created_at ∧
        r1.retention_days = r.retention_days ∧
        r1.events = r.events ++ (takeUntilTerminal events).map _sanitize_event ∧
        ((∀ e ∈ events, eventType e ≠ some "finish" ∧ eventType e ≠ some "error") →
          r1.status = .DONE ∧ r1.progress = 1 ∧ r1.message = some "Completed") := by
  induction events with
  | nil =>
      intro s r hfind hexp
      have hexp1 : _is_expired (applyFields (collectFields
          [("status", UpdateVal.vstatus .DONE), ("progress", UpdateVal.vfloat 1),
           ("message", UpdateVal.vstr (some "Completed"))]) now r) now = false := by
        rw [is_expired_applyFields _ _ _ _ rfl]; exact hexp
      have hupd := update_found s tid
        [("status", UpdateVal.vstatus .DONE), ("progress", UpdateVal.vfloat 1),
         ("message", UpdateVal.vstr (some "Completed"))] now r hfind rfl hexp1
      simp only [runBody, hupd]
      refine ⟨_, applyFields (collectFields
          [("status", UpdateVal.vstatus .DONE), ("progress", UpdateVal.vfloat 1),
           ("message", UpdateVal.vstr (some "Completed"))]) now r,
        rfl, ?_, rfl, rfl, ?_, ?_⟩
      · rw [findTask_map_ite s tid (applyFields (collectFields
          [("status", UpdateVal.vstatus .DONE), ("progress", UpdateVal.vfloat 1),
           ("message", UpdateVal.vstr (some "Completed"))]) now) (fun x => rfl),
          hfind]
        rfl
      · show r.events = r.events ++ []
        rw [List.append_nil]
      · intro h
        exact ⟨rfl, rfl, rfl⟩
  | cons e rest ih =>
      intro s r hfind hexp
      have happ := append_event_found s tid (_sanitize_event e) now r hfind
      have hfind1 : findTask (s.map (fun x => if x.id == tid then
          { x with events := r.events ++ [_sanitize_event e], updated_at := now }
          else x)) tid =
          some { r with events := r.events ++ [_sanitize_event e], updated_at := now } := by
        rw [findTask_map_ite s tid (fun x =>
          { x with events := r.events ++ [_sanitize_event e], updated_at := now })
          (fun x => rfl), hfind]
        rfl
      have hexp1 : _is_expired { r with events := r.events ++ [_sanitize_event e], updated_at := now } now = false := hexp
      simp only [runBody, happ]
      cases hp : progressOf e with
      | none =>
          exact runBody_ok_tail tid outSet now e rest r.events ih _
            { r with events := r.events ++ [_sanitize_event e], updated_at := now }
            hfind1 hexp1 rfl
      | some q =>
          have hexpP : _is_expired (applyFields (collectFields
              [("progress", UpdateVal.vfloat q)]) now
              { r with events := r.events ++ [_sanitize_event e], updated_at := now }) now = false := by
            rw [is_expired_applyFields _ _ _ _ rfl]; exact hexp1
          have hupd2 := update_found _ tid [("progress", UpdateVal.vfloat q)] now _
            hfind1 rfl hexpP
          have hfind2 : findTask ((s.map (fun x => if x.id == tid then
              { x with events := r.events ++ [_sanitize_event e], updated_at := now }
              else x)).map (fun x => if x.id == tid then
              applyFields (collectFields [("progress", UpdateVal.vfloat q)]) now x
              else x)) tid =
              some (applyFields (collectFields [("progress", UpdateVal.vfloat q)])
                now { r with events := r.events ++ [_sanitize_event e], updated_at := now }) := by
            rw [findTask_map_ite _ tid (applyFields (collectFields
              [("progress", UpdateVal.vfloat q)]) now) (fun x => rfl), hfind1]
            rfl
          simp only [hupd2]
          exact runBody_ok_tail tid outSet now e rest r.events ih _
            (applyFields (collectFields [("progress", UpdateVal.vfloat q)]) now
              { r with events := r.events ++ [_sanitize_event e], updated_at := now })
            hfind2 hexpP rfl

/-- Settings whose output directory is the demo task's directory. -/
def demoSettings : SettingsModel :=
  { translation := { output := "/out/t1" } }

/-- A progress event as the engine emits it. -/
def demoProgressEvent : Event :=
  [("type", PyVal.pystr "progress"), ("progress", PyVal.pyfloat (1/2))]

/-- A finish event carrying the engine's structured result object. -/
def demoFinishEvent : Event :=
  [("type", PyVal.pystr "finish"),
   ("translate_result", PyVal.pyresult
     { mono_pdf_path := some "/out/t1/m.pdf", output_dir := some "/out/t1" })]

/-! ## C4 -/

/-- C4: for a task starting with an empty event log, after the runner
consumes a finite engine stream the persisted event log is exactly the
sanitized stream prefix, in stream order, cut at the first `finish` or
`error` event (inclusive) or running to the end of the stream. -/
theorem event_log_spec (s : Store) (tid : String) (settings : SettingsModel)
    (now : Nat) (events : List Event) (r : TaskRecord)
    (hfind : findTask s tid = some r) (hexp : _is_expired r now = false)
    (hempty : r.events = []) :
    (findTask (_run_task s tid settings now events) tid).map
      (fun x => x.events) =
    some ((takeUntilTerminal events).map _sanitize_event) := by
  have hexpR : _is_expired (applyFields (collectFields
      [("status", UpdateVal.vstatus .RUNNING)]) now r) now = false := by
    rw [is_expired_applyFields _ _ _ _ rfl]; exact hexp
  have hupd := update_found s tid [("status", UpdateVal.vstatus .RUNNING)] now r
    hfind rfl hexpR
  have hfindR : findTask (s.map (fun x => if x.id == tid then
      applyFields (collectFields [("status", UpdateVal.vstatus .RUNNING)]) now x
      else x)) tid =
      some (applyFields (collectFields [("status", UpdateVal.vstatus .RUNNING)])
        now r) := by
    rw [findTask_map_ite s tid (applyFields (collectFields
      [("status", UpdateVal.vstatus .RUNNING)]) now) (fun x => rfl), hfind]
    rfl
  obtain ⟨s1, r1, hrun, hf1, hc1, hr1, hev1, hterm1⟩ :=
    runBody_ok tid settings.translation.output now events _ _ hfindR hexpR
  simp only [_run_task, hupd, hrun]
  rw [hf1]
  simp only [Option.map_some']
  rw [hev1]
  show some (r.events ++ (takeUntilTerminal events).map _sanitize_event) = _
  rw [hempty]
  rfl

/-- Witness for C4: a three-event stream whose second event is the
`finish` event persists exactly the first two sanitized events. -/
theorem event_log_spec_witness :
    findTask [demoRecord] "t1" = some demoRecord ∧
    demoRecord.events = [] ∧
    (findTask (_run_task [demoRecord] "t1" demoSettings 200
        [demoProgressEvent, demoFinishEvent, demoProgressEvent]) "t1").map
        (fun x => x.events) =
      some ((takeUntilTerminal [demoProgressEvent, demoFinishEvent,
        demoProgressEvent]).map _sanitize_event) ∧
    (takeUntilTerminal [demoProgressEvent, demoFinishEvent,
      demoProgressEvent]).length = 2 := by
  refine ⟨rfl, rfl, event_log_spec [demoRecord] "t1" demoSettings 200
    [demoProgressEvent, demoFinishEvent, demoProgressEvent] demoRecord
    rfl rfl rfl, ?_⟩
  rfl

/-! ## C6 -/

/-- C6: when the engine stream ends without any `finish` or `error`
event, the runner leaves the task `DONE` with progress `1.0` and message
`"Completed"` — never stuck in `RUNNING`. -/
theorem stream_end_fallback (s : Store) (tid : String)
    (settings : SettingsModel) (now : Nat) (events : List Event)
    (r : TaskRecord)
    (hfind : findTask s tid = some r) (hexp : _is_expired r now = false)
    (hnoterm : ∀ e ∈ events,
      eventType e ≠ some "finish" ∧ eventType e ≠ some "error") :
    (findTask (_run_task s tid settings now events) tid).map
      (fun x => (x.status, x.progress, x.message)) =
    some (TaskStatus.DONE, 1, some "Completed") := by
  have hexpR : _is_expired (applyFields (collectFields
      [("status", UpdateVal.vstatus .RUNNING)]) now r) now = false := by
    rw [is_expired_applyFields _ _ _ _ rfl]; exact hexp
  have hupd := update_found s tid [("status", UpdateVal.vstatus .RUNNING)] now r
    hfind rfl hexpR
  have hfindR : findTask (s.map (fun x => if x.id == tid then
      applyFields (collectFields [("status", UpdateVal.vstatus .RUNNING)]) now x
      else x)) tid =
      some (applyFields (collectFields [("status", UpdateVal.vstatus .RUNNING)])
        now r) := by
    rw [findTask_map_ite s tid (applyFields (collectFields
      [("status", UpdateVal.vstatus .RUNNING)]) now) (fun x => rfl), hfind]
    rfl
  obtain ⟨s1, r1, hrun, hf1, hc1, hr1, hev1, hterm1⟩ :=
    runBody_ok tid settings.translation.output now events _ _ hfindR hexpR
  obtain ⟨h1, h2, h3⟩ := hterm1 hnoterm
  simp only [_run_task, hupd, hrun]
  rw [hf1]
  simp only [Option.map_some']
  rw [h1, h2, h3]

/-- Witness for C6: a stream holding a single progress event ends the
demo task in `DONE`, `1.0`, `"Completed"`. -/
theorem stream_end_fallback_witness :
    findTask [demoRecord] "t1" = some demoRecord ∧
    eventType demoProgressEvent = some "progress" ∧
    (findTask (_run_task [demoRecord] "t1" demoSettings 200
        [demoProgressEvent]) "t1").map
        (fun x => (x.status, x.progress, x.message)) =
      some (TaskStatus.DONE, 1, some "Completed") := by
  refine ⟨rfl, rfl, stream_end_fallback [demoRecord] "t1" demoSettings 200
    [demoProgressEvent] demoRecord rfl rfl ?_⟩
  intro e he
  rw [List.mem_singleton] at he
  subst he
  exact ⟨by decide, by decide⟩

end PdfApi
